import Mathlib

/-!
Verification of the automatic wrapsafe supervisor.

Shallow embedding of the per-machine logic worker (`machine_worker.py`),
the detector stage (`yolo_worker.py`) and the Modbus worker
(`modbus_worker.py`).  Timestamps and confidences are modelled as
rationals; Python `int()` truncation and `round(x, 2)` (banker's
rounding) are modelled explicitly.
-/

namespace WrapSafe

/-- Python `int(x)` on a real number: truncation toward zero. -/
def pyInt (x : ℚ) : ℤ :=
  if 0 ≤ x then ⌊x⌋ else -⌊-x⌋

/-- Round a rational to the nearest integer, ties to even
(Python's `round` uses banker's rounding). -/
def roundHalfEven (x : ℚ) : ℤ :=
  let n : ℤ := ⌊x⌋
  let f : ℚ := x - n
  if f < 1/2 then n
  else if 1/2 < f then n + 1
  else if n % 2 = 0 then n else n + 1

/-- Python `round(x, 2)`: round to two decimal places, ties to even. -/
def pyRound2 (x : ℚ) : ℚ :=
  (roundHalfEven (100 * x) : ℚ) / 100

/-- Machine identifiers: the system drives exactly two wrapping machines. -/
inductive MachineId
  | A
  | B
deriving DecidableEq, Repr

/-- Event kinds emitted by the logic worker (`_log_event` call sites). -/
inductive EventType
  | AUTO_STOP
  | AUTO_RESET
  | AUTO_START
  | PERSON_EXIT_ROI
  | ROLL_STARTED
  | ROLL_FINISHED
deriving DecidableEq, Repr

instance : BEq EventType := ⟨fun a b => decide (a = b)⟩

instance : LawfulBEq EventType where
  eq_of_beq h := of_decide_eq_true h
  rfl := by intro a; simp [BEq.beq]

/-- A logged event: its kind and the `time.time()` timestamp recorded by
`_log_event`. -/
structure Ev where
  type : EventType
  ts : ℚ
deriving DecidableEq, Repr

/-- A Modbus DO write command, as enqueued by `_write_modbus_do`. -/
structure DoWrite where
  addr : ℕ
  value : Bool
deriving DecidableEq, Repr

/-- `time.sleep(0.3)` separating the ON and OFF writes of every coil
pulse (`_trigger_auto_stop`, `_trigger_auto_reset`, `_handle_auto_start`). -/
def pulse_sleep_sec : ℚ := 3/10

/-- A coil pulse: write ON, sleep `pulse_sleep_sec`, write OFF. -/
def pulse (addr : ℕ) : List DoWrite :=
  [⟨addr, true⟩, ⟨addr, false⟩]

/-! ## ROLL_FINISHED payload (`MachineLogicWorker._on_wrapping_finished`) -/

/-- `duration_sec` as computed in `_on_wrapping_finished`: zero unless
`wrapping_start_time` is truthy (a Python float is falsy when `0.0`). -/
def wrapping_duration_sec (wrapping_start_time : Option ℚ) (timestamp : ℚ) : ℚ :=
  match wrapping_start_time with
  | some t => if t = 0 then 0 else timestamp - t
  | none => 0

/-- The `duration_seconds` field of the `ROLL_FINISHED` payload:
`int(duration_sec)`. -/
def roll_finished_duration_seconds (wrapping_start_time : Option ℚ) (timestamp : ℚ) : ℤ :=
  pyInt (wrapping_duration_sec wrapping_start_time timestamp)

/-- The `duration_minutes` field of the `ROLL_FINISHED` payload:
`round(duration_sec / 60.0, 2)` computed from the raw (un-truncated)
duration. -/
def roll_finished_duration_minutes (wrapping_start_time : Option ℚ) (timestamp : ℚ) : ℚ :=
  pyRound2 (wrapping_duration_sec wrapping_start_time timestamp / 60)

/-- The spec's reading of the payload (claim C1): `durationMinutes =
round(durationSeconds / 60, 2)` where `durationSeconds` is the already
floored value. -/
def spec_duration_minutes (wrapping_start_time : Option ℚ) (timestamp : ℚ) : ℚ :=
  pyRound2 ((roll_finished_duration_seconds wrapping_start_time timestamp : ℚ) / 60)

/-! ## Person-in-ROI keypoint rule (`YOLOWorker._check_keypoints_in_roi`) -/

/-- ROI rectangle in pixel coordinates (`roi_pixels`). -/
structure RoiPixels where
  x0 : ℚ
  y0 : ℚ
  x1 : ℚ
  y1 : ℚ
deriving DecidableEq, Repr

/-- `YOLOWorker._point_in_roi`: `roi[0] <= x <= roi[2] and
roi[1] <= y <= roi[3]`. -/
def point_in_roi (roi : RoiPixels) (x y : ℚ) : Bool :=
  decide (roi.x0 ≤ x) && decide (x ≤ roi.x1) &&
  decide (roi.y0 ≤ y) && decide (y ≤ roi.y1)

/-- One pose keypoint: pixel position and confidence. -/
structure Kpt where
  x : ℚ
  y : ℚ
  conf : ℚ
deriving DecidableEq, Repr

/-- Whether keypoint index `i` of one person counts in the inner loop of
`_check_keypoints_in_roi`: the index must exist, its confidence must be
strictly above `conf_th` and its position inside the ROI. -/
def kpt_counts (roi : RoiPixels) (conf_th : ℚ) (person_kpts : List Kpt) (i : ℕ) : Bool :=
  match person_kpts.get? i with
  | some k => decide (conf_th < k.conf) && point_in_roi roi k.x k.y
  | none => false

/-- The `person_detected_indices` list built for one person: indices of
`check_indices` that count, appended once each (`if kpt_idx not in
person_detected_indices`). -/
def person_detected_indices (roi : RoiPixels) (conf_th : ℚ)
    (check_indices : List ℕ) (person_kpts : List Kpt) : List ℕ :=
  check_indices.foldl
    (fun acc i =>
      if kpt_counts roi conf_th person_kpts i && !(acc.contains i) then acc ++ [i] else acc)
    []

/-- `YOLOWorker._check_keypoints_in_roi`: iterate over all detected
persons, extend the global `detected_indices` with each person's indices
when that person has at least `min_kpts_in_roi` of them, and report
whether the global list reached `min_kpts_in_roi`. -/
def check_keypoints_in_roi (roi : RoiPixels) (conf_th : ℚ) (min_kpts_in_roi : ℕ)
    (check_indices : List ℕ) (keypoints : List (List Kpt)) : Bool × List ℕ :=
  if keypoints.isEmpty then (false, [])
  else
    let detected := keypoints.foldl
      (fun acc person =>
        let pdi := person_detected_indices roi conf_th check_indices person
        if min_kpts_in_roi ≤ pdi.length then acc ++ pdi else acc)
      []
    (decide (min_kpts_in_roi ≤ detected.length), detected)

/-- Claim C3 as the spec words it: a keypoint is in-ROI iff its
confidence is ≥ `KEYPOINT_CONF_THRES` (non-strict) and its position lies
within the ROI. -/
def spec_kpt_in_roi (roi : RoiPixels) (conf_th : ℚ) (person_kpts : List Kpt) (i : ℕ) : Bool :=
  match person_kpts.get? i with
  | some k => decide (conf_th ≤ k.conf) && point_in_roi roi k.x k.y
  | none => false

/-- Claim C3 as the spec words it: a person is in-ROI iff at least
`KEYPOINTS_MIN_IN_ROI` keypoints of the check set are in-ROI. -/
def spec_person_in_roi (roi : RoiPixels) (conf_th : ℚ) (min_kpts_in_roi : ℕ)
    (check_indices : List ℕ) (person_kpts : List Kpt) : Bool :=
  decide (min_kpts_in_roi ≤ ((check_indices.filter
    (fun i => spec_kpt_in_roi roi conf_th person_kpts i)).dedup).length)

/-- Claim C3 as the spec words it: the frame's raw in-ROI boolean is true
iff some detected person is in-ROI. -/
def spec_frame_in_roi (roi : RoiPixels) (conf_th : ℚ) (min_kpts_in_roi : ℕ)
    (check_indices : List ℕ) (keypoints : List (List Kpt)) : Bool :=
  keypoints.any (fun p => spec_person_in_roi roi conf_th min_kpts_in_roi check_indices p)

/-- The amendment of the person rule forced by the source: the keypoint
confidence test is strict (`conf > conf_th`). -/
def strict_person_in_roi (roi : RoiPixels) (conf_th : ℚ) (min_kpts_in_roi : ℕ)
    (check_indices : List ℕ) (person_kpts : List Kpt) : Bool :=
  decide (min_kpts_in_roi ≤ ((check_indices.filter
    (fun i => kpt_counts roi conf_th person_kpts i)).dedup).length)

/-! ## Clamp-release timer (`YOLOWorker.run`, auto-start signal) -/

/-- Detector-side clamp-timer state (`last_roll_clamp_detected`,
`roll_clamp_released_time`, `auto_start_triggered`). -/
structure ClampState where
  last_roll_clamp_detected : Bool
  roll_clamp_released_time : Option ℚ
  auto_start_triggered : Bool
deriving DecidableEq, Repr

/-- Initial clamp-timer state set in `YOLOWorker.__init__`. -/
def clampInit : ClampState :=
  { last_roll_clamp_detected := false
    roll_clamp_released_time := none
    auto_start_triggered := false }

/-- Clamp edge processing (the `ENABLE_ROLL_CLAMP_DETECTION` block of
`YOLOWorker.run`): a falling edge arms the release timer and clears the
trigger latch; a rising edge while armed clears both.  Returns the new
state and the `auto_start_countdown` value put into the result
(`None` unless the release time is truthy and the latch is clear). -/
def clamp_edges (enable_roll_clamp : Bool) (delay : ℚ) (s : ClampState)
    (now : ℚ) (roll_clamp_detected : Bool) : ClampState × Option ℚ :=
  if enable_roll_clamp then
    let s1 :=
      if s.last_roll_clamp_detected && !roll_clamp_detected then
        { s with roll_clamp_released_time := some now, auto_start_triggered := false }
      else s
    let s2 :=
      if roll_clamp_detected && s1.roll_clamp_released_time.isSome then
        { s1 with roll_clamp_released_time := none, auto_start_triggered := false }
      else s1
    let s3 := { s2 with last_roll_clamp_detected := roll_clamp_detected }
    let countdown :=
      match s3.roll_clamp_released_time with
      | some t =>
          if t ≠ 0 && !s3.auto_start_triggered then some (delay - (now - t)) else none
      | none => none
    (s3, countdown)
  else (s, none)

/-- The auto-start signal check (`AUTO START SIGNAL CHECK` block of
`YOLOWorker.run`): when the timer is armed, the latch clear and the
delay elapsed, either latch and signal (no person, no clamp) or reset
the timer to `now`.  Returns the new state and the
`auto_start_signal` flag of the emitted result. -/
def clamp_check (enable_obb : Bool) (delay : ℚ) (s : ClampState)
    (now : ℚ) (final_detected clamp_detected : Bool) : ClampState × Bool :=
  match s.roll_clamp_released_time with
  | some t =>
      if s.auto_start_triggered then (s, false)
      else if delay ≤ now - t then
        let can_auto_start := !final_detected && !(enable_obb && clamp_detected)
        if can_auto_start then ({ s with auto_start_triggered := true }, true)
        else ({ s with roll_clamp_released_time := some now }, false)
      else (s, false)
  | none => (s, false)

/-- One detector result's worth of clamp-timer processing: edge handling
followed by the auto-start check. -/
def clamp_step (enable_roll_clamp enable_obb : Bool) (delay : ℚ) (s : ClampState)
    (now : ℚ) (final_detected clamp_detected : Bool) : ClampState × Option ℚ × Bool :=
  let (s1, countdown) := clamp_edges enable_roll_clamp delay s now clamp_detected
  let (s2, signal) := clamp_check enable_obb delay s1 now final_detected clamp_detected
  (s2, countdown, signal)

/-- Run the clamp timer over a sequence of detector results, collecting
the emitted `auto_start_signal` flags. -/
def run_clamp (enable_roll_clamp enable_obb : Bool) (delay : ℚ) (s : ClampState) :
    List (ℚ × Bool × Bool) → ClampState × List Bool
  | [] => (s, [])
  | (now, final_detected, clamp_detected) :: rest =>
      let step :=
        clamp_step enable_roll_clamp enable_obb delay s now final_detected clamp_detected
      let next := run_clamp enable_roll_clamp enable_obb delay step.1 rest
      (next.1, step.2.2 :: next.2)

/-- Number of results carrying `auto_start_signal = true`. -/
def countSignals (signals : List Bool) : ℕ :=
  (signals.filter (fun b => b)).length

/-! ## DetectionResult and the DI-gated skip path (`YOLOWorker.run`) -/

/-- The fields of the detector result dict that the logic worker reads.
Missing dict keys are modelled by the consumer-side `dict.get` defaults
(`auto_start_countdown = None`, `auto_start_signal = False`). -/
structure DetectionResult where
  person_in_roi : Bool
  person_count : ℕ
  ts : ℚ
  raw_detected : Bool
  roll_clamp_detected : Bool
  paper_roll_detected : Bool
  auto_start_countdown : Option ℚ := none
  auto_start_signal : Bool := false
deriving DecidableEq, Repr

/-- The result emitted on the DI-gated skip path of `YOLOWorker.run`
(`di_detection_disabled`): person/clamp/paper flags all false, pose and
OBB inference skipped. -/
def gated_result_data (ts : ℚ) : DetectionResult :=
  { person_in_roi := false
    person_count := 0
    ts := ts
    raw_detected := false
    roll_clamp_detected := false
    paper_roll_detected := false }

/-- Whether a frame takes the gated skip path: `ENABLE_DETECTION_ON_DI`
is set and the gate value last received from the logic worker is false. -/
def di_detection_disabled (enable_detection_on_di di_enabled : Bool) : Bool :=
  enable_detection_on_di && !di_enabled

/-- The detector's per-frame emission, with the non-gated inference path
abstracted as `inferred`: the gated path replaces it by
`gated_result_data`. -/
def yolo_frame_result (enable_detection_on_di di_enabled : Bool)
    (ts : ℚ) (inferred : DetectionResult) : DetectionResult :=
  if di_detection_disabled enable_detection_on_di di_enabled then gated_result_data ts
  else inferred

/-! ## Logic worker: DI addresses and auto start
(`MachineLogicWorker._handle_auto_start`) -/

/-- MachineReady DI address (A: 5, B: 13). -/
def ready_addr : MachineId → ℕ
  | .A => 5
  | .B => 13

/-- Run DI address (A: 4, B: 12). -/
def run_addr : MachineId → ℕ
  | .A => 4
  | .B => 12

/-- CheckRoll DI address (A: 0, B: 8); also the detector gate address. -/
def check_roll_addr : MachineId → ℕ
  | .A => 0
  | .B => 8

/-- DI values as read by `di_values.get(addr, False)`. -/
def DiMap : Type := ℕ → Bool

/-- `MachineLogicWorker._handle_auto_start`: re-check MachineReady,
Run and CheckRoll on the machine's DI addresses; when all hold, pulse
the START coil (address 0) and log `AUTO_START`; otherwise do nothing. -/
def handle_auto_start (m : MachineId) (di : DiMap) (now : ℚ) :
    List DoWrite × List Ev :=
  let machine_ready := di (ready_addr m)
  let machine_running := di (run_addr m)
  let check_roll := di (check_roll_addr m)
  if !machine_ready then ([], [])
  else if machine_running then ([], [])
  else if !check_roll then ([], [])
  else (pulse 0, [⟨.AUTO_START, now⟩])

/-! ## Logic worker: safety rules
(`MachineLogicWorker._check_safety_rules` and its trigger helpers) -/

/-- The configuration the safety rules read
(`AUTO_STOP_ON_PERSON`, `STOP_COOLDOWN_SEC`, `AUTO_RESET_ON_CLEAR`). -/
structure SafetyCfg where
  auto_stop_enabled : Bool
  auto_stop_cooldown : ℚ
  auto_reset_on_clear : Bool
deriving Repr

/-- The machine-state fields the safety rules touch. -/
structure SafetyState where
  person_detected : Bool
  person_count : ℕ
  auto_stop_active : Bool
  last_auto_stop_time : ℚ
deriving DecidableEq, Repr

/-- Initial safety fields of `MachineState`. -/
def safetyInit : SafetyState :=
  { person_detected := false
    person_count := 0
    auto_stop_active := false
    last_auto_stop_time := 0 }

/-- `MachineLogicWorker._trigger_auto_stop`: pulse the STOP coil
(address 1), set `auto_stop_active`, record the stop time and log
`AUTO_STOP`. -/
def trigger_auto_stop (now : ℚ) (s : SafetyState) :
    SafetyState × List DoWrite × List Ev :=
  ({ s with auto_stop_active := true, last_auto_stop_time := now },
   pulse 1, [⟨.AUTO_STOP, now⟩])

/-- `MachineLogicWorker._trigger_auto_reset`: pulse the RESET coil
(address 2), clear `auto_stop_active`, log `AUTO_RESET` and then (via
`_on_person_exit_roi`) log `PERSON_EXIT_ROI`. -/
def trigger_auto_reset (now : ℚ) (s : SafetyState) :
    SafetyState × List DoWrite × List Ev :=
  ({ s with auto_stop_active := false },
   pulse 2, [⟨.AUTO_RESET, now⟩, ⟨.PERSON_EXIT_ROI, now⟩])

/-- The condition under which `_check_safety_rules` calls
`_trigger_auto_stop`: auto-stop enabled, person detected, not already in
auto-stop, and strictly more than the cooldown since the last one. -/
def stop_condition (cfg : SafetyCfg) (now : ℚ) (s : SafetyState) : Bool :=
  cfg.auto_stop_enabled && s.person_detected && !s.auto_stop_active &&
    decide (cfg.auto_stop_cooldown < now - s.last_auto_stop_time)

/-- `MachineLogicWorker._check_safety_rules`. -/
def check_safety_rules (cfg : SafetyCfg) (now : ℚ) (s : SafetyState) :
    SafetyState × List DoWrite × List Ev :=
  if !cfg.auto_stop_enabled then (s, [], [])
  else if s.person_detected then
    if !s.auto_stop_active && decide (cfg.auto_stop_cooldown < now - s.last_auto_stop_time)
    then trigger_auto_stop now s
    else (s, [], [])
  else
    if s.auto_stop_active then
      if cfg.auto_reset_on_clear then trigger_auto_reset now s
      else ({ s with auto_stop_active := false }, [], [⟨.PERSON_EXIT_ROI, now⟩])
    else (s, [], [])

/-- Run the safety rules over a trace of ticks, each tick supplying the
current time and the `person_detected` flag left by the drained detector
results. -/
def run_safety (cfg : SafetyCfg) (s : SafetyState) :
    List (ℚ × Bool) → SafetyState × List Ev
  | [] => (s, [])
  | (now, person) :: rest =>
      let step := check_safety_rules cfg now { s with person_detected := person }
      let next := run_safety cfg step.1 rest
      (next.1, step.2.2 ++ next.2)

/-- Timestamps of the `AUTO_STOP` events of a trace, in emission order. -/
def autoStopTimes (evs : List Ev) : List ℚ :=
  (evs.filter (fun e => e.type == .AUTO_STOP)).map Ev.ts

/-- Decidable check that every `AUTO_RESET` event is immediately
followed by a `PERSON_EXIT_ROI` event. -/
def resetFollowedByExit : List Ev → Bool
  | [] => true
  | ⟨.AUTO_RESET, _⟩ :: rest =>
      (match rest with
       | ⟨.PERSON_EXIT_ROI, _⟩ :: _ => true
       | _ => false) && resetFollowedByExit rest
  | _ :: rest => resetFollowedByExit rest

/-! ## Logic worker: consuming a detector result and the safety tick
(`MachineLogicWorker._process_yolo_results` followed by
`_check_safety_rules`) -/

/-- `_process_yolo_results` for one drained result: update the detection
fields of the state and run `_handle_auto_start` when the result carries
`auto_start_signal`. -/
def process_yolo_result (m : MachineId) (di : DiMap) (now : ℚ)
    (s : SafetyState) (r : DetectionResult) :
    SafetyState × List DoWrite × List Ev :=
  let s1 := { s with person_detected := r.person_in_roi, person_count := r.person_count }
  if r.auto_start_signal then
    let (ws, evs) := handle_auto_start m di now
    (s1, ws, evs)
  else (s1, [], [])

/-- One logic-loop tick restricted to the paths that can emit safety
events: drain the (at most one) pending detector result, then run the
safety rules. -/
def logic_tick (m : MachineId) (cfg : SafetyCfg) (di : DiMap) (now : ℚ)
    (s : SafetyState) (r : Option DetectionResult) :
    SafetyState × List DoWrite × List Ev :=
  let (s1, ws1, evs1) :=
    match r with
    | some r => process_yolo_result m di now s r
    | none => (s, [], [])
  let (s2, ws2, evs2) := check_safety_rules cfg now s1
  (s2, ws1 ++ ws2, evs1 ++ evs2)

/-- Run `logic_tick` over a trace. -/
def run_logic (m : MachineId) (cfg : SafetyCfg) (s : SafetyState) :
    List (DiMap × ℚ × Option DetectionResult) → SafetyState × List Ev
  | [] => (s, [])
  | (di, now, r) :: rest =>
      let step := logic_tick m cfg di now s r
      let next := run_logic m cfg step.1 rest
      (next.1, step.2.2 ++ next.2)

/-! ## Production roll lifecycle
(`MachineLogicWorker._check_production_status` with its recovery query
`_get_last_unfinished_roll`, `_on_wrapping_started`,
`_on_wrapping_finished`) -/

/-- BlueRun status coil. -/
def blue_run_addr : ℕ := 6

/-- GreenFinish status coil. -/
def green_finish_addr : ℕ := 7

/-- Production-tracking fields of the logic worker. -/
structure ProdState where
  prev_wrapping_status : Bool
  prev_check_roll_status : Bool
  wrapping_start_time : Option ℚ
  is_waiting_for_removal : Bool
  removal_wait_start_time : Option ℚ
  roll_capture_pending_time : Option ℚ
deriving DecidableEq, Repr

/-- Initial production-tracking state (`MachineLogicWorker.__init__`). -/
def prodInit : ProdState :=
  { prev_wrapping_status := false
    prev_check_roll_status := false
    wrapping_start_time := none
    is_waiting_for_removal := false
    removal_wait_start_time := none
    roll_capture_pending_time := none }

/-- The `NOT EXISTS` subquery of `_get_last_unfinished_roll`: no
`ROLL_FINISHED` strictly later than `t` in the event store. -/
def no_later_finish (db : List Ev) (t : ℚ) : Bool :=
  !(db.any fun e => e.type == .ROLL_FINISHED && decide (t < e.ts))

/-- `MachineLogicWorker._get_last_unfinished_roll`: the most recent
`ROLL_STARTED` with no later `ROLL_FINISHED` (`ORDER BY timestamp DESC
LIMIT 1` over the chronologically appended event store). -/
def get_last_unfinished_roll (db : List Ev) : Option ℚ :=
  ((db.filter fun e => e.type == .ROLL_STARTED && no_later_finish db e.ts).getLast?).map Ev.ts

/-- `MachineLogicWorker._check_production_status` for one tick.  `db` is
the event store accumulated so far (used by the recovery query); the
emitted events are appended to it by the caller.  Note that the removal
block evaluates `is_waiting_for_removal` once, so the 300 s timeout
branch and the roll-falling-edge branch can both run in a single tick. -/
def check_production_status (s : ProdState) (db : List Ev) (now : ℚ)
    (current_wrapping check_roll_current machine_ready : Bool) :
    ProdState × List DoWrite × List Ev :=
  if !machine_ready then
    ({ s with prev_wrapping_status := current_wrapping
              prev_check_roll_status := check_roll_current
              is_waiting_for_removal := false
              wrapping_start_time := none }, [], [])
  else
    let s1 :=
      if s.wrapping_start_time.isNone &&
         (current_wrapping || (check_roll_current && !current_wrapping)) then
        match get_last_unfinished_roll db with
        | some t =>
            if current_wrapping then { s with wrapping_start_time := some t }
            else { s with wrapping_start_time := some t
                          is_waiting_for_removal := true
                          removal_wait_start_time := some now }
        | none => s
      else s
    let s2 :=
      if current_wrapping && !check_roll_current && s1.prev_check_roll_status then
        { s1 with is_waiting_for_removal := false, wrapping_start_time := none }
      else s1
    let start_stop :=
      if current_wrapping && !s2.prev_wrapping_status then
        if check_roll_current then
          if !s2.is_waiting_for_removal then
            ({ s2 with wrapping_start_time := some now, is_waiting_for_removal := false },
             ([⟨blue_run_addr, true⟩, ⟨green_finish_addr, false⟩] : List DoWrite),
             ([⟨.ROLL_STARTED, now⟩] : List Ev))
          else (s2, [], [])
        else (s2, [], [])
      else if !current_wrapping && s2.prev_wrapping_status then
        if s2.wrapping_start_time.isSome then
          ({ s2 with is_waiting_for_removal := true, removal_wait_start_time := some now },
           ([⟨blue_run_addr, false⟩, ⟨green_finish_addr, true⟩] : List DoWrite), ([] : List Ev))
        else (s2, [], [])
      else (s2, [], [])
    let s3 := start_stop.1
    let removal :=
      if s3.is_waiting_for_removal then
        let timeout :=
          match s3.removal_wait_start_time with
          | some r =>
              if decide (300 < now - r) then
                ({ s3 with wrapping_start_time := none
                           is_waiting_for_removal := false
                           removal_wait_start_time := none },
                 ([⟨green_finish_addr, false⟩] : List DoWrite), ([⟨.ROLL_FINISHED, now⟩] : List Ev))
              else (s3, [], [])
          | none => (s3, [], [])
        let sa := timeout.1
        let falling :=
          if !check_roll_current && sa.prev_check_roll_status then
            ({ sa with wrapping_start_time := none
                       is_waiting_for_removal := false
                       removal_wait_start_time := none },
             ([⟨green_finish_addr, false⟩] : List DoWrite), ([⟨.ROLL_FINISHED, now⟩] : List Ev))
          else (sa, [], [])
        (falling.1, timeout.2.1 ++ falling.2.1, timeout.2.2 ++ falling.2.2)
      else (s3, [], [])
    let s4 := removal.1
    let s5 :=
      if check_roll_current && !s4.prev_check_roll_status then
        { s4 with roll_capture_pending_time := some (now + 5) }
      else s4
    let s6 := { s5 with prev_wrapping_status := current_wrapping
                        prev_check_roll_status := check_roll_current }
    (s6, start_stop.2.1 ++ removal.2.1, start_stop.2.2 ++ removal.2.2)

/-- Run the production state machine over a trace of ticks, threading
the event store the recovery query reads.  Each tick supplies the time
and the Run, CheckRoll and MachineReady DI values.  Returns the final
state and the full event store. -/
def run_production (s : ProdState) (db : List Ev) :
    List (ℚ × Bool × Bool × Bool) → ProdState × List Ev
  | [] => (s, db)
  | (now, w, cr, rdy) :: rest =>
      let step := check_production_status s db now w cr rdy
      run_production step.1 (db ++ step.2.2) rest

/-- Count the events of one kind in a trace. -/
def countType (t : EventType) (evs : List Ev) : ℕ :=
  (evs.filter (fun e => e.type == t)).length

/-! ## Modbus worker connection supervision
(`ModbusWorker._initial_connect_with_retry` and the `ConnectionError`
handler of `ModbusWorker.run`) -/

/-- Errors recorded in `last_error` (the source uses message strings). -/
inductive ModbusErr
  | readTimeout
  | readError
  | writeError
  | initialFail
  | connLost
deriving DecidableEq, Repr

/-- Connection-supervision fields of the worker. -/
structure MWState where
  connected : Bool
  last_error : Option ModbusErr
deriving DecidableEq, Repr

/-- The retry-delay sequence of `_initial_connect_with_retry`:
`retry_delay` starts at 2 and after each failed retry becomes
`min(max_retry_delay, retry_delay * 2)` with the cap at 30 s. -/
def retry_delay_seq : ℕ → ℕ
  | 0 => 2
  | n + 1 => min 30 (retry_delay_seq n * 2)

/-- The retry loop of `_initial_connect_with_retry`: sleep the current
delay, attempt a connect (its outcome taken from `outcomes`), stop on
success, else double the delay (capped at 30) and continue.  Returns the
sleeps performed and whether a connect succeeded before the supplied
outcomes ran out. -/
def connect_retry_loop (delay : ℕ) : List Bool → List ℕ × Bool
  | [] => ([], false)
  | ok :: rest =>
      if ok then ([delay], true)
      else
        let r := connect_retry_loop (min 30 (delay * 2)) rest
        (delay :: r.1, r.2)

/-- Result of one `_initial_connect_with_retry` call:
whether it returned connected, the sleeps it performed, and whether it
published the "Initial connection failed" `connected=false` snapshot. -/
structure ConnectRun where
  connected : Bool
  sleeps : List ℕ
  notified_disconnect : Bool
deriving DecidableEq, Repr

/-- `ModbusWorker._initial_connect_with_retry`: one immediate attempt;
on failure publish a `connected=false` snapshot and enter the backoff
retry loop starting at 2 s. -/
def initial_connect_with_retry : List Bool → ConnectRun
  | [] => ⟨false, [], false⟩
  | ok :: rest =>
      if ok then ⟨true, [], false⟩
      else
        let r := connect_retry_loop 2 rest
        ⟨r.2, r.1, true⟩

/-- The `except ConnectionError` branch of `ModbusWorker.run`: record
the error, disconnect, publish a `connected=false` snapshot immediately,
re-enter the connection retry loop, and clear `last_error` once
reconnected.  Returns the new state, the `connected` flags of the
published snapshots in order, and the sleeps performed. -/
def handle_connection_error (e : ModbusErr) (outcomes : List Bool) :
    MWState × List Bool × List ℕ :=
  let cr := initial_connect_with_retry outcomes
  let notices := false :: (if cr.notified_disconnect then [false] else [])
  let s2 : MWState :=
    if cr.connected then { connected := true, last_error := none }
    else { connected := false, last_error := some e }
  (s2, notices, cr.sleeps)

/-! ## Theorems -/

theorem pyInt_eq_floor {x : ℚ} (hx : 0 ≤ x) : pyInt x = ⌊x⌋ := by
  simp [pyInt, hx]

/-- C1 (amended): every `ROLL_FINISHED` payload has
`durationSeconds = floor(finishTs − startTs)` while `durationMinutes`
is `round((finishTs − startTs) / 60, 2)` computed from the raw,
un-floored duration (the claim's `round(durationSeconds / 60, 2)` does
not match the source). -/
theorem C1_roll_finished_payload (t fin : ℚ) (ht : 0 < t) (hle : t ≤ fin) :
    roll_finished_duration_seconds (some t) fin = ⌊fin - t⌋ ∧
    roll_finished_duration_minutes (some t) fin = pyRound2 ((fin - t) / 60) := by
  have hne : t ≠ 0 := ne_of_gt ht
  refine ⟨?_, ?_⟩
  · simp only [roll_finished_duration_seconds, wrapping_duration_sec, if_neg hne]
    exact pyInt_eq_floor (by linarith)
  · simp only [roll_finished_duration_minutes, wrapping_duration_sec, if_neg hne]

/-- Witness for C1 at `startTs = 2`, `finishTs = 65.4`. -/
theorem C1_witness :
    roll_finished_duration_seconds (some 2) (327/5) = ⌊(327:ℚ)/5 - 2⌋ ∧
    roll_finished_duration_minutes (some 2) (327/5) = pyRound2 (((327:ℚ)/5 - 2) / 60) :=
  C1_roll_finished_payload 2 (327/5) (by norm_num) (by norm_num)

/-- C1 counterexample: with `startTs = 2` and `finishTs = 65.4` the
payload carries `durationSeconds = 63` but `durationMinutes = 1.06 =
round(63.4 / 60, 2)`, whereas the claim's `round(durationSeconds/60, 2)`
is `round(1.05, 2) = 1.05`. -/
theorem C1_counterexample :
    roll_finished_duration_seconds (some 2) (327/5) = 63 ∧
    roll_finished_duration_minutes (some 2) (327/5) = 53/50 ∧
    spec_duration_minutes (some 2) (327/5) = 21/20 ∧
    roll_finished_duration_minutes (some 2) (327/5) ≠
      spec_duration_minutes (some 2) (327/5) := by
  refine ⟨by with_unfolding_all rfl, by with_unfolding_all rfl, by with_unfolding_all rfl, ?_⟩
  rw [show roll_finished_duration_minutes (some 2) (327/5) = 53/50 by with_unfolding_all rfl,
      show spec_duration_minutes (some 2) (327/5) = 21/20 by with_unfolding_all rfl]
  norm_num

/-- The DI tick trace refuting C2: ready throughout; roll placed at
t=1, Run rises at t=2, Run falls at t=3, and the roll is removed at
t=310, after the 300 s removal-wait timeout has already expired. -/
def c2_trace : List (ℚ × Bool × Bool × Bool) :=
  [(1, false, true, true), (2, true, true, true),
   (3, false, true, true), (310, false, false, true)]

/-- C2 (code bug): on `c2_trace` the production state machine emits one
`ROLL_STARTED` and then two `ROLL_FINISHED` events in the same tick
(the timeout branch and the roll-falling-edge branch both run because
`is_waiting_for_removal` is evaluated once), so between the two
consecutive `ROLL_FINISHED` events there is no `ROLL_STARTED` at all. -/
theorem C2_double_roll_finished :
    (run_production prodInit [] c2_trace).2 =
      [⟨.ROLL_STARTED, 2⟩, ⟨.ROLL_FINISHED, 310⟩, ⟨.ROLL_FINISHED, 310⟩] ∧
    countType .ROLL_STARTED (run_production prodInit [] c2_trace).2 = 1 ∧
    countType .ROLL_FINISHED (run_production prodInit [] c2_trace).2 = 2 := by
  refine ⟨by with_unfolding_all rfl, by with_unfolding_all rfl, by with_unfolding_all rfl⟩

/-- C3 counterexample: a keypoint whose confidence equals
`KEYPOINT_CONF_THRES` exactly and lies inside the ROI.  The spec's
non-strict rule declares the frame in-ROI; the source's strict
`conf > conf_th` test does not. -/
theorem C3_counterexample :
    (check_keypoints_in_roi ⟨0, 0, 10, 10⟩ (1/4) 1 [0] [[⟨5, 5, 1/4⟩]]).1 = false ∧
    spec_frame_in_roi ⟨0, 0, 10, 10⟩ (1/4) 1 [0] [[⟨5, 5, 1/4⟩]] = true := by
  refine ⟨by with_unfolding_all rfl, by with_unfolding_all rfl⟩

/-- C4: at the detector's auto-start check (timer armed, latch clear,
countdown `delay − (now − t) ≤ 0`), the source either latches and sets
`auto_start_signal` on this one result (no person in ROI, no clamp) or
resets the release timer to `now` without a signal. -/
theorem C4_clamp_release_autostart (s : ClampState) (delay now t : ℚ)
    (final clamp : Bool)
    (hrel : s.roll_clamp_released_time = some t)
    (htrig : s.auto_start_triggered = false)
    (hcd : delay - (now - t) ≤ 0) :
    clamp_check true delay s now final clamp =
      if final || clamp then ({ s with roll_clamp_released_time := some now }, false)
      else ({ s with auto_start_triggered := true }, true) := by
  have hd : delay ≤ now - t := by linarith
  unfold clamp_check
  rw [hrel]
  simp only [htrig, Bool.false_eq_true, if_false, if_pos hd]
  cases final <;> cases clamp <;> simp

/-- Witness for C4: timer armed at t=1, delay 180, checked at t=181
with no person and no clamp → the signal fires and the latch is set. -/
theorem C4_witness :
    clamp_check true 180 ⟨false, some 1, false⟩ 181 false false =
      (⟨false, some 1, true⟩, true) := by
  have h := C4_clamp_release_autostart ⟨false, some 1, false⟩ 180 181 1 false false
    rfl rfl (by norm_num)
  simpa using h

/-- C5: the logic worker acts on an `auto_start_signal` iff
MachineReady is true, Run is false and CheckRoll is true on the
machine-specific DI addresses (A: 5/4/0, B: 13/12/8); when they hold it
pulses the START coil (address 0, ON then OFF with a 300 ms sleep) and
logs `AUTO_START`, otherwise it writes nothing and emits nothing. -/
theorem C5_auto_start_verification :
    (∀ (m : MachineId) (di : DiMap) (now : ℚ),
      handle_auto_start m di now =
        if di (ready_addr m) && !di (run_addr m) && di (check_roll_addr m) then
          (pulse 0, [⟨.AUTO_START, now⟩])
        else ([], [])) ∧
    pulse 0 = [⟨0, true⟩, ⟨0, false⟩] ∧ pulse_sleep_sec = 3/10 ∧
    ready_addr .A = 5 ∧ run_addr .A = 4 ∧ check_roll_addr .A = 0 ∧
    ready_addr .B = 13 ∧ run_addr .B = 12 ∧ check_roll_addr .B = 8 := by
  refine ⟨?_, rfl, rfl, rfl, rfl, rfl, rfl, rfl, rfl⟩
  intro m di now
  unfold handle_auto_start
  cases h1 : di (ready_addr m) <;> cases h2 : di (run_addr m) <;>
    cases h3 : di (check_roll_addr m) <;> simp [h1, h2, h3]

theorem retry_delay_seq_closed (n : ℕ) :
    retry_delay_seq n = if n < 4 then 2 ^ (n + 1) else 30 := by
  induction n with
  | zero => rfl
  | succ n ih =>
      rw [retry_delay_seq, ih]
      by_cases h : n < 4
      · rw [if_pos h]
        interval_cases n <;> decide
      · rw [if_neg h, if_neg (by omega)]
        decide

theorem map_retry_range (j k : ℕ) :
    List.map (fun n => retry_delay_seq (j + n)) (List.range (k + 1)) =
      retry_delay_seq j :: List.map (fun n => retry_delay_seq (j + 1 + n)) (List.range k) := by
  rw [List.range_succ_eq_map, List.map_cons, List.map_map]
  simp only [Nat.add_zero, Function.comp_def]
  refine congrArg _ (List.map_congr_left ?_)
  intro a _
  congr 1
  omega

theorem connect_retry_loop_replicate (k j : ℕ) :
    connect_retry_loop (retry_delay_seq j) (List.replicate k false ++ [true]) =
      ((List.range (k + 1)).map (fun n => retry_delay_seq (j + n)), true) := by
  induction k generalizing j with
  | zero =>
      simp [connect_retry_loop, List.range_succ]
  | succ k ih =>
      rw [List.replicate_succ]
      simp only [List.cons_append, connect_retry_loop, Bool.false_eq_true, if_false,
        List.append_eq]
      rw [show min 30 (retry_delay_seq j * 2) = retry_delay_seq (j + 1) from rfl,
        ih (j + 1), map_retry_range j (k + 1)]

/-- C8: on connection failure the worker publishes a `connected=false`
snapshot immediately and retries with inter-attempt sleeps doubling from
2 s capped at 30 s (sequence 2, 4, 8, 16, 30, 30, …); on reconnection it
resumes connected and clears the last-error field.  `k` is the number of
failed connect attempts before the one that succeeds. -/
theorem C8_backoff_reconnect (e : ModbusErr) (k : ℕ) (hk : 1 ≤ k) :
    handle_connection_error e (List.replicate k false ++ [true]) =
      (⟨true, none⟩, [false, false], (List.range k).map retry_delay_seq) ∧
    (∀ n, retry_delay_seq n = if n < 4 then 2 ^ (n + 1) else 30) := by
  refine ⟨?_, retry_delay_seq_closed⟩
  obtain ⟨m, rfl⟩ : ∃ m, k = m + 1 := ⟨k - 1, by omega⟩
  rw [List.replicate_succ]
  unfold handle_connection_error initial_connect_with_retry
  simp only [List.cons_append, Bool.false_eq_true, if_false]
  have h2 : (2 : ℕ) = retry_delay_seq 0 := rfl
  rw [h2, connect_retry_loop_replicate m 0]
  simp

/-- Witness for C8 with five failed attempts before success: the sleeps
are exactly 2, 4, 8, 16, 30 seconds. -/
theorem C8_witness :
    1 ≤ 5 ∧
    handle_connection_error .connLost (List.replicate 5 false ++ [true]) =
      (⟨true, none⟩, [false, false], [2, 4, 8, 16, 30]) := by
  refine ⟨by norm_num, ?_⟩
  have h := (C8_backoff_reconnect .connLost 5 (by norm_num)).1
  simpa [List.range_succ] using h

theorem autoStopTimes_append (a b : List Ev) :
    autoStopTimes (a ++ b) = autoStopTimes a ++ autoStopTimes b := by
  simp [autoStopTimes]

theorem check_safety_rules_spec (cfg : SafetyCfg) (now : ℚ) (s : SafetyState) :
    autoStopTimes (check_safety_rules cfg now s).2.2 =
      (if stop_condition cfg now s then [now] else []) ∧
    (check_safety_rules cfg now s).1.last_auto_stop_time =
      (if stop_condition cfg now s then now else s.last_auto_stop_time) := by
  unfold check_safety_rules stop_condition trigger_auto_stop trigger_auto_reset
  cases he : cfg.auto_stop_enabled <;>
    cases hp : s.person_detected <;>
      cases ha : s.auto_stop_active <;>
        cases hr : cfg.auto_reset_on_clear <;>
          by_cases hc : cfg.auto_stop_cooldown < now - s.last_auto_stop_time <;>
            simp [autoStopTimes, hc]

theorem run_safety_chain (cfg : SafetyCfg) :
    ∀ (inputs : List (ℚ × Bool)) (s : SafetyState),
      List.Chain' (fun a b : ℚ => a + cfg.auto_stop_cooldown < b)
        (autoStopTimes (run_safety cfg s inputs).2) ∧
      ∀ h, (autoStopTimes (run_safety cfg s inputs).2).head? = some h →
        cfg.auto_stop_cooldown < h - s.last_auto_stop_time := by
  intro inputs
  induction inputs with
  | nil =>
      intro s
      simp [run_safety, autoStopTimes]
  | cons x rest ih =>
      intro s
      obtain ⟨now, person⟩ := x
      simp only [run_safety, autoStopTimes_append]
      obtain ⟨h1, h2⟩ :=
        check_safety_rules_spec cfg now { s with person_detected := person }
      rw [h1]
      by_cases hcond : stop_condition cfg now { s with person_detected := person }
      · rw [if_pos hcond] at h1 h2 ⊢
        obtain ⟨ihc, ihh⟩ := ih (check_safety_rules cfg now { s with person_detected := person }).1
        have hgap : cfg.auto_stop_cooldown <
            now - ({ s with person_detected := person } : SafetyState).last_auto_stop_time := by
          have := hcond
          unfold stop_condition at this
          simp only [Bool.and_eq_true, decide_eq_true_eq] at this
          exact this.2
        refine ⟨?_, ?_⟩
        · rw [List.singleton_append, List.chain'_cons']
          refine ⟨?_, ihc⟩
          intro y hy
          have := ihh y (by exact hy)
          rw [h2] at this
          linarith
        · intro h hh
          rw [List.singleton_append, List.head?_cons, Option.some_inj] at hh
          subst hh
          exact hgap
      · rw [if_neg hcond] at h1 h2 ⊢
        obtain ⟨ihc, ihh⟩ := ih (check_safety_rules cfg now { s with person_detected := person }).1
        rw [List.nil_append]
        refine ⟨ihc, ?_⟩
        intro h hh
        have := ihh h hh
        rw [h2] at this
        exact this

/-- C6: in every safety trace, consecutive `AUTO_STOP` events are at
least `STOP_COOLDOWN_SEC` apart, and a stop (STOP pulse on address 1
plus `AUTO_STOP` event) fires exactly when auto-stop is not already
active and strictly more than the cooldown has elapsed since the last
auto-stop (with `AUTO_STOP_ON_PERSON` enabled and a person detected). -/
theorem C6_auto_stop_cooldown :
    (∀ (cfg : SafetyCfg) (s : SafetyState) (inputs : List (ℚ × Bool)),
      List.Chain' (fun a b : ℚ => cfg.auto_stop_cooldown ≤ b - a)
        (autoStopTimes (run_safety cfg s inputs).2)) ∧
    (∀ (cfg : SafetyCfg) (now : ℚ) (s : SafetyState),
      ((check_safety_rules cfg now s).2.2.any (fun e => e.type == .AUTO_STOP) ||
        (check_safety_rules cfg now s).2.1.any (fun w => w.addr == 1 && w.value)) =
        stop_condition cfg now s) := by
  constructor
  · intro cfg s inputs
    exact ((run_safety_chain cfg inputs s).1).imp (fun a b hab => by linarith)
  · intro cfg now s
    unfold check_safety_rules stop_condition trigger_auto_stop trigger_auto_reset pulse
    cases he : cfg.auto_stop_enabled <;>
      cases hp : s.person_detected <;>
        cases ha : s.auto_stop_active <;>
          cases hr : cfg.auto_reset_on_clear <;>
            by_cases hc : cfg.auto_stop_cooldown < now - s.last_auto_stop_time <;>
              simp [hc]

theorem rfe_check_safety (cfg : SafetyCfg) (now : ℚ) (s : SafetyState) (l : List Ev) :
    resetFollowedByExit ((check_safety_rules cfg now s).2.2 ++ l) = resetFollowedByExit l := by
  unfold check_safety_rules trigger_auto_stop trigger_auto_reset
  cases he : cfg.auto_stop_enabled <;>
    cases hp : s.person_detected <;>
      cases ha : s.auto_stop_active <;>
        cases hr : cfg.auto_reset_on_clear <;>
          by_cases hc : cfg.auto_stop_cooldown < now - s.last_auto_stop_time <;>
            simp [resetFollowedByExit, hc]

/-- C9: `_trigger_auto_reset` logs `AUTO_RESET` and then immediately
`PERSON_EXIT_ROI`, so in every safety trace each `AUTO_RESET` event is
immediately followed by a `PERSON_EXIT_ROI` event. -/
theorem C9_auto_reset_followed_by_exit :
    (∀ (now : ℚ) (s : SafetyState),
      (trigger_auto_reset now s).2.2 = [⟨.AUTO_RESET, now⟩, ⟨.PERSON_EXIT_ROI, now⟩]) ∧
    (∀ (cfg : SafetyCfg) (s : SafetyState) (inputs : List (ℚ × Bool)),
      resetFollowedByExit (run_safety cfg s inputs).2 = true) := by
  refine ⟨fun now s => rfl, ?_⟩
  intro cfg s inputs
  induction inputs generalizing s with
  | nil => rfl
  | cons x rest ih =>
      obtain ⟨now, person⟩ := x
      simp only [run_safety]
      rw [rfe_check_safety]
      exact ih _

theorem clamp_step_no_clamp (delay now : ℚ) (final : Bool) (s : ClampState) :
    (clamp_step true true delay s now final false).1.last_roll_clamp_detected = false ∧
    ((clamp_step true true delay s now final false).2.2 = true →
      (clamp_step true true delay s now final false).1.auto_start_triggered = true) ∧
    (s.last_roll_clamp_detected = false → s.auto_start_triggered = true →
      (clamp_step true true delay s now final false).2.2 = false ∧
      (clamp_step true true delay s now final false).1.auto_start_triggered = true) := by
  unfold clamp_step clamp_edges clamp_check
  cases hl : s.last_roll_clamp_detected <;>
    cases hrel : s.roll_clamp_released_time <;>
      cases htr : s.auto_start_triggered <;>
        cases final <;>
          simp_all <;>
            split_ifs <;>
              simp_all

theorem clamp_locked_no_signal (delay : ℚ) :
    ∀ (inputs : List (ℚ × Bool × Bool)) (s : ClampState),
      s.last_roll_clamp_detected = false → s.auto_start_triggered = true →
      (∀ i ∈ inputs, i.2.2 = false) →
      countSignals (run_clamp true true delay s inputs).2 = 0 := by
  intro inputs
  induction inputs with
  | nil =>
      intro s _ _ _
      rfl
  | cons x rest ih =>
      intro s hl ht hall
      obtain ⟨now, final, clampv⟩ := x
      have hc : clampv = false := hall _ (List.mem_cons_self _ _)
      subst hc
      simp only [run_clamp]
      obtain ⟨h1, _, h3⟩ := clamp_step_no_clamp delay now final s
      obtain ⟨hsig, htrig⟩ := h3 hl ht
      simp only [countSignals, List.filter_cons, hsig]
      simp only [Bool.false_eq_true, if_false]
      exact ih _ h1 htrig (fun i hi => hall i (List.mem_cons_of_mem _ hi))

/-- C10: once the auto-start latch fires, it stays set until a clamp
edge; so over any run of detector results in which the clamp stays
undetected (one clamp-release episode), at most one result carries
`auto_start_signal`. -/
theorem C10_auto_start_signal_once (delay : ℚ) (s : ClampState)
    (inputs : List (ℚ × Bool × Bool))
    (h : ∀ i ∈ inputs, i.2.2 = false) :
    countSignals (run_clamp true true delay s inputs).2 ≤ 1 := by
  induction inputs generalizing s with
  | nil =>
      simp [run_clamp, countSignals]
  | cons x rest ih =>
      obtain ⟨now, final, clampv⟩ := x
      have hc : clampv = false := h _ (List.mem_cons_self _ _)
      subst hc
      simp only [run_clamp]
      obtain ⟨h1, h2, _⟩ := clamp_step_no_clamp delay now final s
      by_cases hsig : (clamp_step true true delay s now final false).2.2 = true
      · have htrig := h2 hsig
        have hzero := clamp_locked_no_signal delay rest _ h1 htrig
          (fun i hi => h i (List.mem_cons_of_mem _ hi))
        rw [hsig]
        simp only [countSignals] at hzero ⊢
        simp [hzero]
      · have hsig' : (clamp_step true true delay s now final false).2.2 = false := by
          simpa using hsig
        simp only [countSignals, List.filter_cons, hsig', Bool.false_eq_true, if_false]
        exact ih _ (fun i hi => h i (List.mem_cons_of_mem _ hi))

/-- Witness for C10: an episode starting with the clamp-release falling
edge at t=0, results at t=180 and t=250 with no person and no clamp. -/
theorem C10_witness :
    countSignals (run_clamp true true 180 ⟨true, none, false⟩
      [(0, false, false), (180, false, false), (250, false, false)]).2 ≤ 1 := by
  apply C10_auto_start_signal_once
  intro i hi
  simp only [List.mem_cons, List.not_mem_nil, or_false] at hi
  rcases hi with h | h | h <;> subst h <;> rfl

theorem countType_append (t : EventType) (a b : List Ev) :
    countType t (a ++ b) = countType t a + countType t b := by
  simp [countType]

theorem no_auto_stop_when_person_clear (cfg : SafetyCfg) (now : ℚ) (s : SafetyState)
    (hp : s.person_detected = false) :
    countType .AUTO_STOP (check_safety_rules cfg now s).2.2 = 0 := by
  unfold check_safety_rules trigger_auto_reset
  cases he : cfg.auto_stop_enabled <;>
    cases ha : s.auto_stop_active <;>
      cases hr : cfg.auto_reset_on_clear <;>
        simp [countType, hp]

/-- C7: with `ENABLE_DETECTION_ON_DI` set and the gate DI false the
detector emits the gated result (`personInRoi = false`, inference
skipped), and a logic worker that consumes only gated results emits no
`AUTO_STOP` event while the gate stays false. -/
theorem C7_di_gate_no_auto_stop :
    (∀ (ts : ℚ) (inferred : DetectionResult),
      yolo_frame_result true false ts inferred = gated_result_data ts ∧
      (gated_result_data ts).person_in_roi = false) ∧
    (∀ (m : MachineId) (cfg : SafetyCfg) (s : SafetyState)
        (ticks : List (DiMap × ℚ × Option DetectionResult)),
      (∀ t ∈ ticks, ∃ tsv, t.2.2 = some (gated_result_data tsv)) →
      countType .AUTO_STOP (run_logic m cfg s ticks).2 = 0) := by
  refine ⟨fun ts inferred => ⟨rfl, rfl⟩, ?_⟩
  intro m cfg s ticks
  induction ticks generalizing s with
  | nil =>
      intro _
      rfl
  | cons x rest ih =>
      intro hall
      obtain ⟨di, now, r⟩ := x
      obtain ⟨tsv, hr⟩ := hall _ (List.mem_cons_self _ _)
      simp only at hr
      subst hr
      have hstep : logic_tick m cfg di now s (some (gated_result_data tsv)) =
          ((check_safety_rules cfg now
              { s with person_detected := false, person_count := 0 }).1,
           [] ++ (check_safety_rules cfg now
              { s with person_detected := false, person_count := 0 }).2.1,
           [] ++ (check_safety_rules cfg now
              { s with person_detected := false, person_count := 0 }).2.2) := rfl
      have hs : countType .AUTO_STOP
          (check_safety_rules cfg now
            { s with person_detected := false, person_count := 0 }).2.2 = 0 :=
        no_auto_stop_when_person_clear cfg now _ rfl
      simp only [run_logic]
      rw [hstep]
      simp only [List.nil_append]
      rw [countType_append, hs, ih _ (fun t ht => hall t (List.mem_cons_of_mem _ ht))]

/-- Witness for C7: one tick consuming a gated result emits no
`AUTO_STOP`. -/
theorem C7_witness :
    countType .AUTO_STOP (run_logic .A ⟨true, 3, false⟩ safetyInit
      [(fun _ => false, 1, some (gated_result_data 1))]).2 = 0 :=
  C7_di_gate_no_auto_stop.2 .A ⟨true, 3, false⟩ safetyInit _
    (by
      intro t ht
      simp only [List.mem_singleton] at ht
      subst ht
      exact ⟨1, rfl⟩)

theorem pdi_fold_mem (roi : RoiPixels) (conf_th : ℚ) (p : List Kpt) :
    ∀ (ci acc : List ℕ) (x : ℕ),
      (x ∈ ci.foldl (fun acc i =>
          if kpt_counts roi conf_th p i && !(acc.contains i) then acc ++ [i] else acc) acc) ↔
        (x ∈ acc ∨ (x ∈ ci ∧ kpt_counts roi conf_th p x = true)) := by
  intro ci
  induction ci with
  | nil =>
      intro acc x
      simp
  | cons i ci ih =>
      intro acc x
      simp only [List.foldl_cons]
      by_cases hq : kpt_counts roi conf_th p i = true
      · by_cases hm : i ∈ acc
        · rw [if_neg (by simp [hq, hm]), ih]
          constructor
          · rintro (h | ⟨hx, hk⟩)
            · exact Or.inl h
            · exact Or.inr ⟨List.mem_cons_of_mem _ hx, hk⟩
          · rintro (h | ⟨hx, hk⟩)
            · exact Or.inl h
            · rcases List.mem_cons.mp hx with rfl | hx
              · exact Or.inl hm
              · exact Or.inr ⟨hx, hk⟩
        · rw [if_pos (by simp [hq, hm]), ih]
          simp only [List.mem_append, List.mem_singleton]
          constructor
          · rintro ((h | rfl) | ⟨hx, hk⟩)
            · exact Or.inl h
            · exact Or.inr ⟨List.mem_cons_self _ _, hq⟩
            · exact Or.inr ⟨List.mem_cons_of_mem _ hx, hk⟩
          · rintro (h | ⟨hx, hk⟩)
            · exact Or.inl (Or.inl h)
            · rcases List.mem_cons.mp hx with rfl | hx
              · exact Or.inl (Or.inr rfl)
              · exact Or.inr ⟨hx, hk⟩
      · rw [if_neg (by simp [hq]), ih]
        constructor
        · rintro (h | ⟨hx, hk⟩)
          · exact Or.inl h
          · exact Or.inr ⟨List.mem_cons_of_mem _ hx, hk⟩
        · rintro (h | ⟨hx, hk⟩)
          · exact Or.inl h
          · rcases List.mem_cons.mp hx with rfl | hx
            · exact absurd hk hq
            · exact Or.inr ⟨hx, hk⟩

theorem pdi_fold_nodup (roi : RoiPixels) (conf_th : ℚ) (p : List Kpt) :
    ∀ (ci acc : List ℕ), acc.Nodup →
      (ci.foldl (fun acc i =>
          if kpt_counts roi conf_th p i && !(acc.contains i) then acc ++ [i] else acc)
        acc).Nodup := by
  intro ci
  induction ci with
  | nil =>
      intro acc h
      exact h
  | cons i ci ih =>
      intro acc h
      simp only [List.foldl_cons]
      by_cases hcond :
          (kpt_counts roi conf_th p i && !(acc.contains i)) = true
      · rw [if_pos hcond]
        refine ih _ ?_
        have hm : i ∉ acc := by
          simp at hcond
          exact hcond.2
        simp [List.nodup_append, h, hm]
      · rw [if_neg hcond]
        exact ih _ h

theorem pdi_length (roi : RoiPixels) (conf_th : ℚ) (ci : List ℕ) (p : List Kpt) :
    (person_detected_indices roi conf_th ci p).length =
      ((ci.filter (fun i => kpt_counts roi conf_th p i)).dedup).length := by
  have h1 : (person_detected_indices roi conf_th ci p).Nodup :=
    pdi_fold_nodup roi conf_th p ci [] List.nodup_nil
  have h2 : ((ci.filter (fun i => kpt_counts roi conf_th p i)).dedup).Nodup :=
    List.nodup_dedup _
  rw [← List.toFinset_card_of_nodup h1, ← List.toFinset_card_of_nodup h2]
  congr 1
  ext x
  rw [List.mem_toFinset, List.mem_toFinset, person_detected_indices,
    pdi_fold_mem, List.mem_dedup, List.mem_filter]
  simp

theorem persons_fold_length (roi : RoiPixels) (conf_th : ℚ) (min_kpts_in_roi : ℕ)
    (ci : List ℕ) :
    ∀ (kps : List (List Kpt)) (acc : List ℕ),
      (min_kpts_in_roi ≤ (kps.foldl (fun acc person =>
          let pdi := person_detected_indices roi conf_th ci person
          if min_kpts_in_roi ≤ pdi.length then acc ++ pdi else acc) acc).length) ↔
        (min_kpts_in_roi ≤ acc.length ∨ ∃ p ∈ kps,
          min_kpts_in_roi ≤ (person_detected_indices roi conf_th ci p).length) := by
  intro kps
  induction kps with
  | nil =>
      intro acc
      simp
  | cons p kps ih =>
      intro acc
      simp only [List.foldl_cons]
      by_cases hp : min_kpts_in_roi ≤ (person_detected_indices roi conf_th ci p).length
      · rw [if_pos hp, ih]
        constructor
        · rintro _
          exact Or.inr ⟨p, List.mem_cons_self _ _, hp⟩
        · rintro (h | ⟨q, hq, hlen⟩)
          · refine Or.inl ?_
            calc min_kpts_in_roi ≤ acc.length := h
              _ ≤ (acc ++ person_detected_indices roi conf_th ci p).length := by
                  simp
          · rcases List.mem_cons.mp hq with rfl | hq
            · refine Or.inl ?_
              calc min_kpts_in_roi
                  ≤ (person_detected_indices roi conf_th ci q).length := hlen
                _ ≤ (acc ++ person_detected_indices roi conf_th ci q).length := by simp
            · exact Or.inr ⟨q, hq, hlen⟩
      · rw [if_neg hp, ih]
        constructor
        · rintro (h | ⟨q, hq, hlen⟩)
          · exact Or.inl h
          · exact Or.inr ⟨q, List.mem_cons_of_mem _ hq, hlen⟩
        · rintro (h | ⟨q, hq, hlen⟩)
          · exact Or.inl h
          · rcases List.mem_cons.mp hq with rfl | hq
            · exact absurd hlen hp
            · exact Or.inr ⟨q, hq, hlen⟩

/-- C3 (amended): the frame's raw in-ROI boolean returned by
`_check_keypoints_in_roi` is true iff some detected person has at least
`KEYPOINTS_MIN_IN_ROI` keypoints of the check set with confidence
strictly above `KEYPOINT_CONF_THRES` (not ≥, as the claim states) lying
inside the ROI. -/
theorem C3_frame_in_roi_characterization (roi : RoiPixels) (conf_th : ℚ)
    (min_kpts_in_roi : ℕ) (check_indices : List ℕ) (keypoints : List (List Kpt)) :
    (check_keypoints_in_roi roi conf_th min_kpts_in_roi check_indices keypoints).1 = true ↔
      ∃ p ∈ keypoints,
        strict_person_in_roi roi conf_th min_kpts_in_roi check_indices p = true := by
  cases keypoints with
  | nil =>
      simp [check_keypoints_in_roi]
  | cons p0 kps =>
      unfold check_keypoints_in_roi
      simp only [List.isEmpty_cons, Bool.false_eq_true, if_false, decide_eq_true_eq]
      rw [persons_fold_length]
      simp only [List.length_nil, Nat.le_zero]
      constructor
      · rintro (h0 | ⟨q, hq, hlen⟩)
        · refine ⟨p0, List.mem_cons_self _ _, ?_⟩
          unfold strict_person_in_roi
          simp [h0]
        · refine ⟨q, hq, ?_⟩
          unfold strict_person_in_roi
          rw [decide_eq_true_iff, ← pdi_length]
          exact hlen
      · rintro ⟨q, hq, hstrict⟩
        refine Or.inr ⟨q, hq, ?_⟩
        rw [pdi_length]
        unfold strict_person_in_roi at hstrict
        exact of_decide_eq_true hstrict

end WrapSafe
